import Mathlib

/-!
Verification of the nwd1-quic frame layer (src/lib.rs).

The crate sends and receives length-prefixed `nwd1` frames over one QUIC
bidirectional stream. We embed the reader and writer shallowly:

* a QUIC receive stream is a list of pending bytes followed by how the
  stream ends (clean FIN, or a reset carrying a transport error);
* `read_exact`, `read_exact_opt`, `recv_frame`, `send_frame` are
  translated line by line from src/lib.rs; `recv_frame` also returns the
  stream that remains and the list of buffer-allocation request sizes it
  made (the `vec![0u8; len]` and `BytesMut::with_capacity(8 + len)` calls),
  so that claims about consumed bytes and about allocation order are
  statable;
* the payload codec (`nwd1::encode` / `nwd1::decode`) is an external
  crate, not in this repository; `recv_frame` is therefore parameterised
  by an arbitrary decode function, and a concrete codec is modelled from
  the spec where a claim needs one.

Bytes are `Nat` (values below 256 on every real stream); `u32` values from
the wire are below 2 to the 32 by construction of `be32`.
-/

namespace Nwd1Quic

/-- The 4 magic bytes "NWD1" (`nwd1::MAGIC`). -/
def MAGIC : List Nat := [78, 87, 68, 49]

/-- `HEADER_LEN` from src/lib.rs. -/
def HEADER_LEN : Nat := 8

/-- `MAX_FRAME_LEN` from src/lib.rs: 8 MiB sanity cap. -/
def MAX_FRAME_LEN : Nat := 8 * 1024 * 1024

/-- `nwd1::Frame`: identifier (`NetId64`, a 64-bit id), kind tag, version
tag, opaque payload bytes. -/
structure Frame where
  id : Nat
  kind : Nat
  ver : Nat
  payload : List Nat
deriving DecidableEq

/-- The kind of a `std::io::Error`: `InvalidData`, or any other kind
(carried opaquely, as produced by converting a transport error). -/
inductive ErrKind where
  | invalidData
  | transport (code : Nat)
deriving DecidableEq

/-- A `std::io::Error`: a kind plus a message string. -/
structure IoError where
  kind : ErrKind
  msg : String
deriving DecidableEq

/-- How a QUIC receive stream ends once its pending bytes are exhausted:
a clean FIN from the peer, or a reset surfacing as a transport error. -/
inductive Tail where
  | fin
  | reset (e : IoError)
deriving DecidableEq

/-- A `quinn::RecvStream`: the bytes still to be delivered, then the way
the stream ends. -/
structure RecvStream where
  data : List Nat
  tail : Tail
deriving DecidableEq

/-- Result of `quinn::RecvStream::read_exact`: all requested bytes, or
`FinishedEarly k` (stream finished after only `k` of the requested bytes),
or a transport read error. -/
inductive ReadExactRes where
  | ok (bytes : List Nat) (rest : RecvStream)
  | finishedEarly (k : Nat) (rest : RecvStream)
  | readError (e : IoError)

/-- `quinn::RecvStream::read_exact` on the stream model: deliver exactly
`n` bytes when available; otherwise report how the stream ended, with
`FinishedEarly` carrying the count of bytes that were delivered. -/
def read_exact (s : RecvStream) (n : Nat) : ReadExactRes :=
  if n ≤ s.data.length then
    .ok (s.data.take n) ⟨s.data.drop n, s.tail⟩
  else
    match s.tail with
    | .fin => .finishedEarly s.data.length ⟨[], .fin⟩
    | .reset e => .readError e

/-- `read_exact_opt` from src/lib.rs: `Ok(Some(..))` on full delivery,
`Ok(None)` on `FinishedEarly(_)` — the delivered-byte count is discarded —
and `Err` on a transport read error. -/
def read_exact_opt (s : RecvStream) (n : Nat) :
    Except IoError (Option (List Nat) × RecvStream) :=
  match read_exact s n with
  | .ok bytes rest => .ok (some bytes, rest)
  | .finishedEarly _ rest => .ok (none, rest)
  | .readError e => .error e

/-- `u32::from_be_bytes` on a 4-byte list. -/
def be32 : List Nat → Nat
  | a :: b :: c :: d :: _ => ((a * 256 + b) * 256 + c) * 256 + d
  | _ => 0

/-- What one `recv_frame` call produced: its `Result<Option<Frame>>`, the
stream state afterwards, and the sizes of the buffer allocations it made,
in order. -/
structure RecvOutcome where
  result : Except IoError (Option Frame)
  rest : RecvStream
  allocs : List Nat

/-- The body phase of `recv_frame` (src/lib.rs lines 61-77): allocate
`vec![0u8; len]`, read the body, then build the 8+len `BytesMut` and run
the codec. -/
def recv_body (decode : List Nat → Option Frame) (header : List Nat)
    (len : Nat) (s : RecvStream) : RecvOutcome :=
  match read_exact_opt s len with
  | .error e => ⟨.error e, s, [len]⟩
  | .ok (none, rest) => ⟨.ok none, rest, [len]⟩
  | .ok (some body, rest) =>
    match decode (header ++ body) with
    | some f => ⟨.ok (some f), rest, [len, 8 + len]⟩
    | none => ⟨.error ⟨.invalidData, "nwd1 decode error"⟩, rest, [len, 8 + len]⟩

/-- `recv_frame` from src/lib.rs, parameterised by the external codec
decode function: read the 8-byte header (`Ok(None)` if the first read
reports a finished stream), check the magic, parse the big-endian length,
check it against the cap, then run the body phase. -/
def recv_frame (decode : List Nat → Option Frame) (s : RecvStream) :
    RecvOutcome :=
  match read_exact_opt s HEADER_LEN with
  | .error e => ⟨.error e, s, []⟩
  | .ok (none, rest) => ⟨.ok none, rest, []⟩
  | .ok (some header, rest) =>
    if header.take 4 ≠ MAGIC then
      ⟨.error ⟨.invalidData, "nwd1 bad magic"⟩, rest, []⟩
    else
      if be32 (header.drop 4) > MAX_FRAME_LEN then
        ⟨.error ⟨.invalidData, "nwd1 frame too large"⟩, rest, []⟩
      else
        recv_body decode header (be32 (header.drop 4)) rest

/-- A `quinn::SendStream`: bytes written so far, whether it is open, and
an injected write failure (`some e` makes the next write fail with `e`,
modelling a transport write error). `e` is an opaque
`quinn::WriteError` code. -/
structure SendStream where
  written : List Nat
  isOpen : Bool
  failWith : Option Nat
deriving DecidableEq

/-- `quinn::SendStream::write_all` on the stream model: fail with the
injected transport error, or append all the bytes. It never closes the
stream. -/
def write_all (s : SendStream) (data : List Nat) :
    Except Nat Unit × SendStream :=
  match s.failWith with
  | some e => (.error e, s)
  | none => (.ok (), ⟨s.written ++ data, s.isOpen, none⟩)

/-- `send_frame` from src/lib.rs, parameterised by the external codec
encode function: encode the frame and write all the bytes, propagating a
write failure with `?`. -/
def send_frame (encode : Frame → List Nat) (s : SendStream) (f : Frame) :
    Except Nat Unit × SendStream :=
  write_all s (encode f)

/-- Big-endian 4-byte encoding of a `u32` value. -/
def be32Bytes (n : Nat) : List Nat :=
  [n / 2 ^ 24 % 256, n / 2 ^ 16 % 256, n / 2 ^ 8 % 256, n % 256]

/-- `u64::from_be_bytes` on an 8-byte list. -/
def be64 : List Nat → Nat
  | a :: b :: c :: d :: e :: f :: g :: h :: _ =>
    ((((((a * 256 + b) * 256 + c) * 256 + d) * 256 + e) * 256 + f) * 256
        + g) * 256 + h
  | _ => 0

/-- Big-endian 8-byte encoding of a `u64` value. -/
def be64Bytes (n : Nat) : List Nat :=
  [n / 2 ^ 56 % 256, n / 2 ^ 48 % 256, n / 2 ^ 40 % 256, n / 2 ^ 32 % 256,
    n / 2 ^ 24 % 256, n / 2 ^ 16 % 256, n / 2 ^ 8 % 256, n % 256]

namespace nwd1

/-- Modelled from the spec: `nwd1::encode`, the external payload codec,
whose source is not in this repository. The spec fixes the header
(4 magic bytes then the big-endian u32 body length, section 6) and leaves
the mapping of the structured fields to body bytes to the codec; we model
the body as id (8 bytes big-endian), kind (1 byte), ver (1 byte), then the
payload. -/
def encode (f : Frame) : List Nat :=
  MAGIC ++ be32Bytes (10 + f.payload.length) ++ be64Bytes f.id
    ++ [f.kind, f.ver] ++ f.payload

/-- Modelled from the spec: `nwd1::decode`, the external payload codec,
whose source is not in this repository. It takes the whole wire frame
(header plus body), validates magic and length, and recovers the fields;
a body shorter than the 10 fixed field bytes is taken as a bare payload
with zero id, kind and ver, which is what the spec scenario with a 4-byte
body "ping" requires (section 8, Scenario A). -/
def decode (bytes : List Nat) : Option Frame :=
  if bytes.length < 8 then none
  else if bytes.take 4 ≠ MAGIC then none
  else
    let body := bytes.drop 8
    if body.length ≠ be32 ((bytes.drop 4).take 4) then none
    else if body.length < 10 then some ⟨0, 0, 0, body⟩
    else some ⟨be64 (body.take 8), body.getD 8 0, body.getD 9 0, body.drop 10⟩

end nwd1

/-- When all `n` requested bytes are pending, `read_exact_opt` delivers
them and leaves the rest of the stream. -/
lemma read_exact_opt_full (s : RecvStream) (n : Nat) (h : n ≤ s.data.length) :
    read_exact_opt s n = .ok (some (s.data.take n), ⟨s.data.drop n, s.tail⟩) := by
  simp [read_exact_opt, read_exact, h]

/-- `recv_frame` on a stream holding a full 8-byte header: the magic
check, then the length-cap check, then the body phase. -/
lemma recv_frame_of_full_header (d : List Nat → Option Frame)
    (s : RecvStream) (h8 : 8 ≤ s.data.length) :
    recv_frame d s =
      if s.data.take 4 ≠ MAGIC then
        ⟨.error ⟨.invalidData, "nwd1 bad magic"⟩, ⟨s.data.drop 8, s.tail⟩, []⟩
      else if be32 ((s.data.drop 4).take 4) > MAX_FRAME_LEN then
        ⟨.error ⟨.invalidData, "nwd1 frame too large"⟩,
          ⟨s.data.drop 8, s.tail⟩, []⟩
      else
        recv_body d (s.data.take 8) (be32 ((s.data.drop 4).take 4))
          ⟨s.data.drop 8, s.tail⟩ := by
  have ht : (s.data.take 8).take 4 = s.data.take 4 := by
    rw [List.take_take]
    norm_num
  have hd : (s.data.take 8).drop 4 = (s.data.drop 4).take 4 := by
    rw [List.drop_take]
  rw [recv_frame, HEADER_LEN, read_exact_opt_full s 8 h8]
  simp only [ht, hd]

/-- `recv_body` when all `L` body bytes are pending: allocate, read them,
build the 8+L buffer and run the codec. -/
lemma recv_body_full (d : List Nat → Option Frame) (header : List Nat)
    (L : Nat) (rest : RecvStream) (h : L ≤ rest.data.length) :
    recv_body d header L rest =
      match d (header ++ rest.data.take L) with
      | some f => ⟨.ok (some f), ⟨rest.data.drop L, rest.tail⟩, [L, 8 + L]⟩
      | none => ⟨.error ⟨.invalidData, "nwd1 decode error"⟩,
          ⟨rest.data.drop L, rest.tail⟩, [L, 8 + L]⟩ := by
  rw [recv_body, read_exact_opt_full rest L h]

/-- Big-endian 4-byte encoding inverts `be32` below 2 to the 32. -/
lemma be32_be32Bytes (n : Nat) (h : n < 2 ^ 32) : be32 (be32Bytes n) = n := by
  simp only [be32Bytes, be32]
  omega

/-- Big-endian 8-byte encoding inverts `be64` below 2 to the 64. -/
lemma be64_be64Bytes (n : Nat) (h : n < 2 ^ 64) : be64 (be64Bytes n) = n := by
  simp only [be64Bytes, be64]
  omega

/-- `be32Bytes` always yields 4 bytes. -/
lemma length_be32Bytes (n : Nat) : (be32Bytes n).length = 4 := rfl

/-- `be64Bytes` always yields 8 bytes. -/
lemma length_be64Bytes (n : Nat) : (be64Bytes n).length = 8 := rfl

/-- C1: the claim says a stream that delivers 1-7 of the 8 header bytes
and then ends cleanly makes `recv_frame` return a TruncatedFrame error.
The code instead returns the clean-end value `Ok(None)`: `read_exact_opt`
maps `FinishedEarly(_)` to `Ok(None)` whatever the delivered count.
Evaluation at a stream that delivers 3 header bytes and then a clean
FIN. -/
theorem recv_frame_header_cut_returns_none :
    recv_frame nwd1.decode ⟨[78, 87, 68], .fin⟩ = ⟨.ok none, ⟨[], .fin⟩, []⟩ :=
  rfl

/-- C2: the claim says a valid header promising 4 body bytes followed by
only 2 body bytes and a clean end makes `recv_frame` return a
TruncatedFrame error and never `Ok(None)`. The code returns `Ok(None)`:
the body-phase `read_exact_opt` also maps `FinishedEarly(_)` to
`Ok(None)`. Evaluation at magic "NWD1", length 4, body "pi", then FIN. -/
theorem recv_frame_body_cut_returns_none :
    recv_frame nwd1.decode ⟨[78, 87, 68, 49, 0, 0, 0, 4, 112, 105], .fin⟩
      = ⟨.ok none, ⟨[], .fin⟩, [4]⟩ :=
  rfl

/-- C5: a stream that has ended cleanly with zero bytes available makes
`recv_frame` return `Ok(None)`, the clean end-of-stream signal, with
nothing consumed and nothing allocated, whatever the codec. -/
theorem recv_frame_empty_stream_clean_end
    (decode : List Nat → Option Frame) :
    recv_frame decode ⟨[], .fin⟩ = ⟨.ok none, ⟨[], .fin⟩, []⟩ :=
  rfl

/-- C3: whenever the 8 header bytes are delivered and the first 4 differ
from the magic, `recv_frame` fails with the bad-magic `InvalidData`
error, consumes exactly the 8 header bytes (no body bytes), and performs
no allocation at all, whatever the length field holds and whatever the
codec. -/
theorem recv_frame_bad_magic (d : List Nat → Option Frame) (s : RecvStream)
    (h8 : 8 ≤ s.data.length) (hm : s.data.take 4 ≠ MAGIC) :
    recv_frame d s
      = ⟨.error ⟨.invalidData, "nwd1 bad magic"⟩,
          ⟨s.data.drop 8, s.tail⟩, []⟩ := by
  rw [recv_frame_of_full_header d s h8, if_pos hm]

/-- Witness for C3 at a concrete stream: magic bytes all zero, length
field zero, two trailing bytes left unread. -/
theorem recv_frame_bad_magic_witness :
    recv_frame nwd1.decode ⟨[0, 0, 0, 0, 0, 0, 0, 0, 7, 7], .fin⟩
      = ⟨.error ⟨.invalidData, "nwd1 bad magic"⟩, ⟨[7, 7], .fin⟩, []⟩ :=
  recv_frame_bad_magic nwd1.decode ⟨[0, 0, 0, 0, 0, 0, 0, 0, 7, 7], .fin⟩
    (by decide) (by decide)

/-- C4: with valid magic, `recv_frame` fails with the frame-too-large
`InvalidData` error and no allocation exactly when the big-endian length
exceeds `MAX_FRAME_LEN` = 8388608; any length up to and including
8388608 is accepted and the call proceeds to the body phase. -/
theorem recv_frame_length_cap (d : List Nat → Option Frame) (s : RecvStream)
    (h8 : 8 ≤ s.data.length) (hm : s.data.take 4 = MAGIC) :
    (be32 ((s.data.drop 4).take 4) > MAX_FRAME_LEN →
      recv_frame d s = ⟨.error ⟨.invalidData, "nwd1 frame too large"⟩,
        ⟨s.data.drop 8, s.tail⟩, []⟩)
    ∧ (be32 ((s.data.drop 4).take 4) ≤ MAX_FRAME_LEN →
      recv_frame d s = recv_body d (s.data.take 8)
        (be32 ((s.data.drop 4).take 4)) ⟨s.data.drop 8, s.tail⟩) := by
  rw [recv_frame_of_full_header d s h8]
  constructor
  · intro hL
    rw [if_neg (by simp [hm]), if_pos hL]
  · intro hL
    rw [if_neg (by simp [hm]), if_neg (by omega)]

/-- Witness for C4 at two concrete streams: declared length 9437184
(over the cap) is rejected with no allocation, and declared length
exactly 8388608 proceeds to the body phase. -/
theorem recv_frame_length_cap_witness :
    (recv_frame nwd1.decode ⟨[78, 87, 68, 49, 0, 144, 0, 0], .fin⟩
      = ⟨.error ⟨.invalidData, "nwd1 frame too large"⟩, ⟨[], .fin⟩, []⟩)
    ∧ (recv_frame nwd1.decode ⟨[78, 87, 68, 49, 0, 128, 0, 0], .fin⟩
      = recv_body nwd1.decode [78, 87, 68, 49, 0, 128, 0, 0] 8388608
          ⟨[], .fin⟩) :=
  ⟨(recv_frame_length_cap nwd1.decode ⟨[78, 87, 68, 49, 0, 144, 0, 0], .fin⟩
      (by decide) (by decide)).1 (by decide),
    (recv_frame_length_cap nwd1.decode ⟨[78, 87, 68, 49, 0, 128, 0, 0], .fin⟩
      (by decide) (by decide)).2 (by decide)⟩

/-- C9: when a frame with valid magic and in-bound length L arrives whole
but the codec rejects its bytes, `recv_frame` fails with the decode-error
`InvalidData` error having consumed exactly the 8 + L frame bytes, so the
stream that remains starts at the next frame boundary. -/
theorem recv_frame_decode_error_cursor (d : List Nat → Option Frame)
    (s : RecvStream) (L : Nat)
    (hm : s.data.take 4 = MAGIC)
    (hLdef : L = be32 ((s.data.drop 4).take 4))
    (hcap : L ≤ MAX_FRAME_LEN)
    (hlen : 8 + L ≤ s.data.length)
    (hd : d (s.data.take (8 + L)) = none) :
    recv_frame d s = ⟨.error ⟨.invalidData, "nwd1 decode error"⟩,
      ⟨s.data.drop (8 + L), s.tail⟩, [L, 8 + L]⟩ := by
  subst hLdef
  rw [recv_frame_of_full_header d s (by omega), if_neg (by simp [hm]),
    if_neg (by omega)]
  rw [recv_body_full _ _ _ _ (by simp only [List.length_drop]; omega)]
  rw [show s.data.take 8
        ++ (s.data.drop 8).take (be32 ((s.data.drop 4).take 4))
      = s.data.take (8 + be32 ((s.data.drop 4).take 4)) from
    (List.take_add s.data 8 _).symm]
  rw [hd, List.drop_drop]

/-- Witness for C9: a frame with valid magic, declared length 2, body
fully delivered, a codec rejecting everything, and one extra byte that
stays unread: the error is returned with the cursor on that byte. -/
theorem recv_frame_decode_error_cursor_witness :
    recv_frame (fun _ => none) ⟨[78, 87, 68, 49, 0, 0, 0, 2, 5, 6, 9], .fin⟩
      = ⟨.error ⟨.invalidData, "nwd1 decode error"⟩, ⟨[9], .fin⟩, [2, 10]⟩ :=
  recv_frame_decode_error_cursor (fun _ => none)
    ⟨[78, 87, 68, 49, 0, 0, 0, 2, 5, 6, 9], .fin⟩ 2
    (by decide) (by decide) (by decide) (by decide) rfl

/-- C10: on a stream with no transport failure, every error `recv_frame`
returns is one it constructed itself, and all of them carry the
`InvalidData` kind — the bad-magic, frame-too-large and decode failures
differ only in their message strings. -/
theorem recv_frame_errors_invalid_data (d : List Nat → Option Frame)
    (s : RecvStream) (e : IoError) (r : RecvStream) (al : List Nat)
    (hfin : s.tail = .fin)
    (h : recv_frame d s = ⟨.error e, r, al⟩) :
    e.kind = .invalidData
    ∧ (e.msg = "nwd1 bad magic" ∨ e.msg = "nwd1 frame too large"
        ∨ e.msg = "nwd1 decode error")
    ∧ ("nwd1 bad magic" ≠ "nwd1 frame too large"
        ∧ "nwd1 bad magic" ≠ "nwd1 decode error"
        ∧ "nwd1 frame too large" ≠ "nwd1 decode error") := by
  have main : e.kind = .invalidData
      ∧ (e.msg = "nwd1 bad magic" ∨ e.msg = "nwd1 frame too large"
          ∨ e.msg = "nwd1 decode error") := ?_
  · exact ⟨main.1, main.2, by decide, by decide, by decide⟩
  by_cases h8 : 8 ≤ s.data.length
  · rw [recv_frame_of_full_header d s h8] at h
    by_cases hm : s.data.take 4 ≠ MAGIC
    · rw [if_pos hm] at h
      simp only [RecvOutcome.mk.injEq, Except.error.injEq] at h
      obtain ⟨he, -, -⟩ := h
      subst he
      exact ⟨rfl, Or.inl rfl⟩
    · rw [if_neg hm] at h
      by_cases hL : be32 ((s.data.drop 4).take 4) > MAX_FRAME_LEN
      · rw [if_pos hL] at h
        simp only [RecvOutcome.mk.injEq, Except.error.injEq] at h
        obtain ⟨he, -, -⟩ := h
        subst he
        exact ⟨rfl, Or.inr (Or.inl rfl)⟩
      · rw [if_neg hL] at h
        by_cases hb : be32 ((s.data.drop 4).take 4) ≤ (s.data.drop 8).length
        · rw [recv_body_full _ _ _ _ hb] at h
          cases hd : d (s.data.take 8
              ++ (s.data.drop 8).take (be32 ((s.data.drop 4).take 4))) with
          | some f =>
            rw [hd] at h
            simp at h
          | none =>
            rw [hd] at h
            simp only [RecvOutcome.mk.injEq, Except.error.injEq] at h
            obtain ⟨he, -, -⟩ := h
            subst he
            exact ⟨rfl, Or.inr (Or.inr rfl)⟩
        · have hnone : recv_body d (s.data.take 8)
              (be32 ((s.data.drop 4).take 4)) ⟨s.data.drop 8, s.tail⟩
              = ⟨.ok none, ⟨[], .fin⟩, [be32 ((s.data.drop 4).take 4)]⟩ := by
            rw [recv_body, read_exact_opt, read_exact]
            simp only [hfin]
            rw [if_neg (by simpa using hb)]
          rw [hnone] at h
          simp at h
  · have hnone : recv_frame d s = ⟨.ok none, ⟨[], .fin⟩, []⟩ := by
      rw [recv_frame, HEADER_LEN, read_exact_opt, read_exact, if_neg h8, hfin]
    rw [hnone] at h
    simp at h

/-- Witness for C10 at the concrete bad-magic stream of ten zero bytes. -/
theorem recv_frame_errors_invalid_data_witness :
    (IoError.mk .invalidData "nwd1 bad magic").kind = .invalidData
    ∧ ((IoError.mk .invalidData "nwd1 bad magic").msg = "nwd1 bad magic"
        ∨ (IoError.mk .invalidData "nwd1 bad magic").msg
            = "nwd1 frame too large"
        ∨ (IoError.mk .invalidData "nwd1 bad magic").msg
            = "nwd1 decode error")
    ∧ ("nwd1 bad magic" ≠ "nwd1 frame too large"
        ∧ "nwd1 bad magic" ≠ "nwd1 decode error"
        ∧ "nwd1 frame too large" ≠ "nwd1 decode error") :=
  recv_frame_errors_invalid_data nwd1.decode
    ⟨[0, 0, 0, 0, 0, 0, 0, 0], .fin⟩ ⟨.invalidData, "nwd1 bad magic"⟩
    ⟨[], .fin⟩ [] rfl rfl

/-- C6: round-trip of the modelled codec: decoding the encoding of any
valid frame (64-bit id, byte kind and ver, body length in `u32` range)
recovers the frame whole: id, kind, ver and payload bytes. -/
theorem nwd1_encode_decode_roundtrip (f : Frame)
    (hid : f.id < 2 ^ 64) (hk : f.kind < 256) (hv : f.ver < 256)
    (hp : 10 + f.payload.length < 2 ^ 32) :
    nwd1.decode (nwd1.encode f) = some f := by
  obtain ⟨i, k, v, p⟩ := f
  simp only at hid hk hv hp
  have henc : nwd1.encode ⟨i, k, v, p⟩
      = (MAGIC ++ be32Bytes (10 + p.length))
          ++ (be64Bytes i ++ (k :: v :: p)) := by
    simp [nwd1.encode, List.append_assoc]
  have henc4 : nwd1.encode ⟨i, k, v, p⟩
      = MAGIC ++ (be32Bytes (10 + p.length)
          ++ (be64Bytes i ++ (k :: v :: p))) := by
    simp [nwd1.encode, List.append_assoc]
  have hlen8 : (MAGIC ++ be32Bytes (10 + p.length)).length = 8 := by
    rw [List.length_append, length_be32Bytes]
    rfl
  have hbody : (nwd1.encode ⟨i, k, v, p⟩).drop 8
      = be64Bytes i ++ (k :: v :: p) := by
    rw [henc, List.drop_left' hlen8]
  have htake4 : (nwd1.encode ⟨i, k, v, p⟩).take 4 = MAGIC := by
    rw [henc4, List.take_left' (by rfl)]
  have hdrop4 : ((nwd1.encode ⟨i, k, v, p⟩).drop 4).take 4
      = be32Bytes (10 + p.length) := by
    rw [henc4, List.drop_left' (by rfl), List.take_left' (length_be32Bytes _)]
  have hbodylen : ((nwd1.encode ⟨i, k, v, p⟩).drop 8).length
      = 10 + p.length := by
    rw [hbody, List.length_append, length_be64Bytes]
    simp only [List.length_cons]
    omega
  have htotlen : (nwd1.encode ⟨i, k, v, p⟩).length = 18 + p.length := by
    rw [henc, List.length_append, hlen8, List.length_append, length_be64Bytes]
    simp only [List.length_cons]
    omega
  rw [nwd1.decode]
  rw [if_neg (by rw [htotlen]; omega)]
  rw [if_neg (by rw [htake4]; simp)]
  simp only [hbodylen, hdrop4, be32_be32Bytes _ hp]
  rw [if_neg (by omega), if_neg (by omega)]
  rw [hbody]
  have ht8 : (be64Bytes i ++ (k :: v :: p)).take 8 = be64Bytes i :=
    List.take_left' (length_be64Bytes i)
  rw [ht8, be64_be64Bytes i hid]
  simp [be64Bytes, List.getD]

/-- Witness for C6 at a concrete frame with payload "ping". -/
theorem nwd1_encode_decode_roundtrip_witness :
    nwd1.decode (nwd1.encode ⟨42, 1, 1, [112, 105, 110, 103]⟩)
      = some ⟨42, 1, 1, [112, 105, 110, 103]⟩ :=
  nwd1_encode_decode_roundtrip ⟨42, 1, 1, [112, 105, 110, 103]⟩
    (by decide) (by decide) (by decide) (by decide)

/-- C7: on a stream whose next bytes are magic "NWD1", big-endian length
4 and the body "ping", `recv_frame` returns a frame whose payload is
"ping" (bytes 112, 105, 110, 103) and consumes exactly those 12 bytes:
whatever follows them, and however the stream later ends, is left
untouched. -/
theorem recv_frame_scenario_ping (rest : List Nat) (t : Tail) :
    recv_frame nwd1.decode
      ⟨[78, 87, 68, 49, 0, 0, 0, 4, 112, 105, 110, 103] ++ rest, t⟩
      = ⟨.ok (some ⟨0, 0, 0, [112, 105, 110, 103]⟩), ⟨rest, t⟩, [4, 12]⟩ := by
  have h8 : 8 ≤ (([78, 87, 68, 49, 0, 0, 0, 4, 112, 105, 110, 103] : List Nat)
      ++ rest).length := by
    simp
  have H := recv_frame_of_full_header nwd1.decode
    ⟨[78, 87, 68, 49, 0, 0, 0, 4, 112, 105, 110, 103] ++ rest, t⟩ h8
  simp only [List.cons_append, List.nil_append, List.take_succ_cons,
    List.drop_succ_cons, List.take_zero, List.drop_zero] at H
  rw [if_neg (by decide), if_neg (by decide),
    show be32 [0, 0, 0, 4] = 4 from rfl] at H
  simp only [List.cons_append, List.nil_append]
  rw [H, recv_body_full _ _ _ _ (by simp)]
  have hdec : nwd1.decode [78, 87, 68, 49, 0, 0, 0, 4, 112, 105, 110, 103]
      = some ⟨0, 0, 0, [112, 105, 110, 103]⟩ := by decide
  simp only [List.take_succ_cons, List.take_zero, List.drop_succ_cons,
    List.drop_zero, List.cons_append, List.nil_append, hdec]

/-- C8: `send_frame` either propagates the transport write failure
verbatim leaving the stream untouched, or appends the full contiguous
encoding of the frame to the bytes written and returns `Ok(())` with the
stream exactly as open as before, for any codec encode function. -/
theorem send_frame_writes_encoding (enc : Frame → List Nat)
    (s : SendStream) (f : Frame) :
    send_frame enc s f
      = match s.failWith with
        | some e => (.error e, s)
        | none => (.ok (), ⟨s.written ++ enc f, s.isOpen, none⟩) :=
  rfl

end Nwd1Quic
